import Mathlib

/-!
# Verification of the invoice-monitoring pipeline (`src/app.py`)

This development shallowly embeds the pipeline of `src/app.py`: the
`clean_data` cleaning stage, the `calculate_risk_score` scorer, the
reporting-currency conversion (the `amount_rub` column), the KPI totals,
and the country-hypothesis classification.

Modelling conventions:
* a pandas scalar cell is an `Option` value, `none` standing for `NaN`/`NaT`;
* monetary values, cross rates and ratios are rationals; dates are integers
  counting whole days, so `pd.Timedelta(days=30)` is `+ 30` and
  `(today - due_date).days` is plain integer subtraction;
* a table is a `List` of records in row order.
-/

namespace App

/-! ## Character- and string-level cleaning (clean_data step 6, lines 97-102) -/

/-- Whitespace as `str.strip()` sees it for the characters that occur in this
data: space, tab, newline, carriage return. -/
def isSpaceChar (c : Char) : Bool :=
  c == ' ' || c == '\t' || c == '\n' || c == '\r'

/-- The uppercase-to-lowercase table of `str.lower()` for the alphabet in
play: the categorical cells this pipeline normalizes and compares are ASCII
or already-lowercase Cyrillic literals. -/
def upperToLower : List (Char × Char) :=
  [('A', 'a'), ('B', 'b'), ('C', 'c'), ('D', 'd'), ('E', 'e'), ('F', 'f'),
   ('G', 'g'), ('H', 'h'), ('I', 'i'), ('J', 'j'), ('K', 'k'), ('L', 'l'),
   ('M', 'm'), ('N', 'n'), ('O', 'o'), ('P', 'p'), ('Q', 'q'), ('R', 'r'),
   ('S', 's'), ('T', 't'), ('U', 'u'), ('V', 'v'), ('W', 'w'), ('X', 'x'),
   ('Y', 'y'), ('Z', 'z')]

/-- `str.lower()` on one character: table lookup, other characters pass
through unchanged. -/
def pyLowerChar (c : Char) : Char :=
  ((upperToLower.find? fun p => p.1 == c).map Prod.snd).getD c

/-- `str.lower()` over a character list. -/
def pyLower (l : List Char) : List Char := l.map pyLowerChar

/-- Left half of `str.strip()`. -/
def ldrop (l : List Char) : List Char := l.dropWhile isSpaceChar

/-- Right half of `str.strip()`. -/
def rdrop (l : List Char) : List Char := (l.reverse.dropWhile isSpaceChar).reverse

/-- `str.strip()`. -/
def pyStrip (l : List Char) : List Char := rdrop (ldrop l)

/-- One cell of `.str.strip().str.lower()` (src/app.py line 101). -/
def normalizeCell (s : String) : String := String.mk (pyLower (pyStrip s.toList))

/-! ## The canonical record -/

/-- A row of the canonical table produced by `clean_data`'s rename map
(src/app.py lines 34-52).  The categorical cells `status`, `contractor`,
`country`, `manager` are plain strings, because step 6's `astype(str)` turns
even a missing cell into the literal string `"nan"`; all other cells keep
pandas nullability as `Option`. -/
structure Record where
  invoice_id : Option String
  contractor : String
  vessel : Option String
  country : String
  incoterms : Option String
  bank : Option String
  sales_channel : Option String
  manager : String
  comment : Option String
  status : String
  invoice_date : Option Int
  payment_date : Option Int
  invoice_amount : Option ℚ
  payment_amount : Option ℚ
  invoice_currency : Option String
  cross_rate : Option ℚ
deriving DecidableEq

/-! ## Currency conversion -/

/-- The conversion lambda
`x['invoice_amount'] * x['cross_rate'] if x['invoice_currency'] != 'RUB' else x['invoice_amount']`
(src/app.py lines 204-207; the same lambda reappears at lines 149-152 and
261-265).  Multiplication with a `NaN` operand yields `NaN`, hence the
`Option` match; the currency comparison is Python's exact, case-sensitive
string equality, and a `NaN` currency compares unequal to `'RUB'`. -/
def amount_rub (r : Record) : Option ℚ :=
  if r.invoice_currency ≠ some "RUB" then
    match r.invoice_amount, r.cross_rate with
    | some a, some c => some (a * c)
    | _, _ => none
  else r.invoice_amount

/-! ## pandas series helpers -/

/-- Insertion step for sorting a rational column. -/
def insertSorted (q : ℚ) : List ℚ → List ℚ
  | [] => [q]
  | x :: xs => if q ≤ x then q :: x :: xs else x :: insertSorted q xs

/-- Ascending sort of a rational column. -/
def sortQ (l : List ℚ) : List ℚ := l.foldr insertSorted []

/-- pandas `Series.median()` over the non-null cells (the caller passes the
column with NaNs already dropped): the middle of the sorted values, the mean
of the two middle values for an even count, and `NaN` (here `none`) for an
empty series. -/
def pandasMedian (l : List ℚ) : Option ℚ :=
  let s := sortQ l
  if s.length = 0 then none
  else if s.length % 2 = 1 then some (s.getD (s.length / 2) 0)
  else some ((s.getD (s.length / 2 - 1) 0 + s.getD (s.length / 2) 0) / 2)

/-- pandas `Series.max()` over non-null cells: `NaN` on an empty series. -/
def seriesMax (l : List ℚ) : Option ℚ :=
  match l with
  | [] => none
  | x :: xs => some (xs.foldl max x)

/-- pandas `Series.sum()` with its default `skipna=True`: `NaN` cells are
skipped, not counted as zero rows. -/
def pandasSum (cells : List (Option ℚ)) : ℚ := (cells.filterMap id).sum

/-! ## Risk scoring (src/app.py lines 108-136) -/

/-- `calculate_risk_score` (src/app.py lines 108-136).  `today` is
`pd.Timestamp.now().normalize()` in days; `medRub` is
`df_clean['amount_rub'].median()` (`none` when the column is all-NaN);
`amtRub` is the row's own `amount_rub` cell, present when the function is
applied at line 212.  Comparisons against `NaN` are `False` in pandas, hence
the `Option` matches contribute 0.  The stray `'amount'` block at lines
200-201 and 213-216 is a no-op for the canonical schema, which has no
`amount` column, so the score of a row is exactly this function. -/
def calculate_risk_score (today : Int) (medRub amtRub : Option ℚ) (r : Record) : Int :=
  let score0 : Int := 0
  let score1 : Int :=
    match r.invoice_date with
    | some d =>
      let due_date := d + 30
      let days_overdue := today - due_date
      if 0 < days_overdue then score0 + 50 + min (days_overdue * 5) 50 else score0
    | none => score0
  let score2 : Int :=
    match amtRub, medRub with
    | some a, some m => if m < a then score1 + 10 else score1
    | _, _ => score1
  let score3 : Int :=
    if r.status ∈ (["оплачен", "closed", "paid"] : List String) then score2 else score2 + 15
  let score4 : Int := if r.country = "египет" then score3 + 15 else score3
  min score4 100

/-- The risk score as §4.5 of the specification words it: four additive
penalty components — overdue, large invoice, outstanding status, high-risk
country — summed and then clamped to [0, 100] exactly once at the end. -/
def riskScoreSpec (today : Int) (medRub amtRub : Option ℚ) (r : Record) : Int :=
  let overduePenalty : Int :=
    match r.invoice_date with
    | some d =>
      if 0 < today - (d + 30) then 50 + min ((today - (d + 30)) * 5) 50 else 0
    | none => 0
  let largePenalty : Int :=
    match amtRub, medRub with
    | some a, some m => if m < a then 10 else 0
    | _, _ => 0
  let statusPenalty : Int :=
    if r.status ∈ (["оплачен", "closed", "paid"] : List String) then 0 else 15
  let countryPenalty : Int := if r.country = "египет" then 15 else 0
  max 0 (min (overduePenalty + largePenalty + statusPenalty + countryPenalty) 100)

/-- The `amount_rub` batch median used by the large-invoice penalty
(`df_clean['amount_rub'].median()`, line 124): NaN cells are excluded. -/
def medianAmountRub (rs : List Record) : Option ℚ := pandasMedian (rs.filterMap amount_rub)

/-- The scored table: the `amount_rub` column (line 204) and the
`risk_score` column (line 212) attached to each row of a cleaned table. -/
def scoreTable (today : Int) (rs : List Record) : List (Option ℚ × Int) :=
  rs.map fun r => (amount_rub r, calculate_risk_score today (medianAmountRub rs) (amount_rub r) r)

/-! ## KPI aggregation (src/app.py lines 244-280) -/

/-- `unpaid_mask` (line 268): status not in the canonical paid/closed set. -/
def unpaidMask (r : Record) : Bool :=
  decide (r.status ∉ (["оплачен", "paid", "closed"] : List String))

/-- `overdue_mask` (lines 252 and 272): `due_date = invoice_date + 30` is
strictly before `today`; a `NaT` due date compares `False`. -/
def overdueMask (today : Int) (r : Record) : Bool :=
  match r.invoice_date with
  | some d => decide (d + 30 < today)
  | none => false

/-- `total_expected` (line 269): sum of `amount_rub` over unpaid rows. -/
def totalExpected (rs : List Record) : ℚ :=
  pandasSum ((rs.filter unpaidMask).map amount_rub)

/-- `total_overdue` (line 273): sum of `amount_rub` over overdue rows. -/
def totalOverdue (today : Int) (rs : List Record) : ℚ :=
  pandasSum ((rs.filter (overdueMask today)).map amount_rub)

/-- `total_amount` (line 276): sum of the whole `amount_rub` column. -/
def totalAmount (rs : List Record) : ℚ :=
  pandasSum (rs.map amount_rub)

/-- `overdue_ratio` (initialized to 0 at line 247, overwritten at lines
279-280 only when `total_amount > 0`). -/
def overdue_ratio (today : Int) (rs : List Record) : ℚ :=
  if 0 < totalAmount rs then totalOverdue today rs / totalAmount rs * 100 else 0

/-- One cell of `overdue_df.groupby('contractor')['amount_rub'].sum()`
(lines 284-286, likewise lines 333-336): the summed `amount_rub` of the
overdue rows belonging to one contractor; pandas groupby-sum skips NaN
cells like `Series.sum()` does. -/
def contractorOverdueSum (today : Int) (c : String) (rs : List Record) : ℚ :=
  pandasSum (((rs.filter (overdueMask today)).filter fun r => decide (r.contractor = c)).map
    amount_rub)

/-! ## Country-hypothesis classification (src/app.py lines 426-442) -/

/-- Outcome of the hypothesis check banner. -/
inductive HypothesisResult where
  | confirmed
  | partlyConfirmed
  | notConfirmed
deriving DecidableEq

/-- Lines 427-442: over the per-country `overdue_ratio` column, take the
maximum ratio and the median ratio; "confirmed" when the maximum strictly
exceeds 1.5 times the median, "partially confirmed" when it strictly exceeds
the median but not 1.5 times it, "not confirmed" otherwise.  The check only
runs on a nonempty breakdown (`if not country_overdue.empty`), hence the
`Option`. -/
def hypothesisCheck (ratios : List ℚ) : Option HypothesisResult :=
  match seriesMax ratios, pandasMedian ratios with
  | some highest, some med =>
    some (if med * 1.5 < highest then HypothesisResult.confirmed
          else if med < highest then HypothesisResult.partlyConfirmed
          else HypothesisResult.notConfirmed)
  | _, _ => none

/-! ## Table-level cleaning (`clean_data`, src/app.py lines 21-105) -/

/-- `df_clean.drop_duplicates(subset=['invoice_id'], keep='first')`
(lines 56-57), with an accumulator of the key values already seen.  pandas
`duplicated` treats `NaN` keys as equal to each other, which plain equality
on `Option String` reproduces: `none = none`. -/
def dropDuplicates (seen : List (Option String)) : List Record → List Record
  | [] => []
  | r :: rs =>
    if r.invoice_id ∈ seen then dropDuplicates seen rs
    else r :: dropDuplicates (r.invoice_id :: seen) rs

/-- Step 2 of `clean_data`: deduplication by `invoice_id`, first occurrence
kept. -/
def dedupRecords (rs : List Record) : List Record := dropDuplicates [] rs

/-- `fillna(median_rate)` on one cell: a present rate is kept, a missing one
takes the batch median (and stays `NaN` when the median of an all-NaN column
is itself `NaN`). -/
def fillOne (m : Option ℚ) (r : Record) : Record :=
  { r with cross_rate := match r.cross_rate with | some c => some c | none => m }

/-- Step 5 of `clean_data` (lines 89-95): impute missing cross rates with the
median of the observed ones. -/
def fillCrossRate (rs : List Record) : List Record :=
  rs.map (fillOne (pandasMedian (rs.filterMap fun r => r.cross_rate)))

/-- Step 6 of `clean_data` (lines 97-102) on one record: trim and lowercase
the four categorical cells; every other field passes through unmodified. -/
def normalizeRecord (r : Record) : Record :=
  { r with
    status := normalizeCell r.status
    contractor := normalizeCell r.contractor
    country := normalizeCell r.country
    manager := normalizeCell r.manager }

/-- `clean_data` (lines 21-105) applied to an already-typed table.  For the
canonical column names step 1's rename map is the identity; step 3
(`pd.to_datetime` with coercion) is the identity on an already-parsed
datetime column (`NaT` included); step 4's `astype(str)` followed by the
replace chain and `pd.to_numeric` is the identity on an already-parsed float
column, because a float's repr contains none of the stripped tokens and
parses back to the same value (a NaN prints as `"nan"` and coerces back to
NaN).  The remaining steps are deduplication, cross-rate imputation, and
categorical normalization, in source order. -/
def cleanTyped (rs : List Record) : List Record :=
  (fillCrossRate (dedupRecords rs)).map normalizeRecord

/-! ## Amount-string cleaning (`clean_data` step 4, src/app.py lines 69-87) -/

/-- `.str.replace('≈', '', regex=False)` (line 77). -/
def removeApprox (l : List Char) : List Char := l.filter (· != '≈')

/-- `.str.replace('usd', '', case=False, regex=False)` (line 78): pandas
compiles the escaped literal to a case-insensitive regex and removes every
non-overlapping occurrence, scanning left to right. -/
def removeUsd : List Char → List Char
  | a :: b :: c :: rest =>
    if (a == 'u' || a == 'U') && (b == 's' || b == 'S') && (c == 'd' || c == 'D') then
      removeUsd rest
    else
      a :: removeUsd (b :: c :: rest)
  | l => l

/-- `.str.replace(',', '.', regex=False)` (line 79). -/
def commaToDot (l : List Char) : List Char := l.map fun c => if c == ',' then '.' else c

/-- `.str.replace(' ', '', regex=False)` (line 80): removes the space
character. -/
def removeSpaces (l : List Char) : List Char := l.filter (· != ' ')

/-- `.str.replace('₽', '', regex=False)` (line 81). -/
def removeRuble (l : List Char) : List Char := l.filter (· != '₽')

/-- `.str.replace('$', '', regex=False)` (line 82). -/
def removeDollar (l : List Char) : List Char := l.filter (· != '$')

/-- Numeric value of a digit string. -/
def digitsToNat (l : List Char) : ℕ := l.foldl (fun acc c => 10 * acc + (c.toNat - 48)) 0

/-- Unsigned part of `pd.to_numeric(errors='coerce')` on a cleaned cell: a
decimal numeral — digits around at most one point, at least one digit in
total.  Anything else, including the `"nan"` that a missing cell prints as,
coerces to `NaN`.  (Exponent notation never arises in this pipeline and is
not modelled.) -/
def parseUnsignedDecimal (l : List Char) : Option ℚ :=
  match l.splitOn '.' with
  | [ipart] =>
    if !ipart.isEmpty && ipart.all Char.isDigit then some (digitsToNat ipart : ℚ)
    else none
  | [ipart, fpart] =>
    if (!ipart.isEmpty || !fpart.isEmpty) && ipart.all Char.isDigit && fpart.all Char.isDigit then
      some ((digitsToNat ipart : ℚ) + (digitsToNat fpart : ℚ) / (10 : ℚ) ^ fpart.length)
    else none
  | _ => none

/-- `pd.to_numeric(errors='coerce')` (line 85): optional sign, then a
decimal numeral; unparseable cells become `NaN`. -/
def toNumeric (l : List Char) : Option ℚ :=
  match l with
  | '-' :: rest => (parseUnsignedDecimal rest).map (fun q => -q)
  | '+' :: rest => parseUnsignedDecimal rest
  | _ => parseUnsignedDecimal l

/-- The full amount-cleaning chain of `clean_data` step 4 (lines 74-85)
applied to one string cell, replacements in source order. -/
def cleanAmountCell (s : String) : Option ℚ :=
  toNumeric (removeDollar (removeRuble (removeSpaces (commaToDot (removeUsd (removeApprox s.toList))))))

/-! ## Concrete records used by scenario and witness theorems -/

/-- A benign already-clean row: RUB invoice of 100, paid, not high-risk. -/
def baseRecord : Record :=
  { invoice_id := some "INV-0"
    contractor := "alpha"
    vessel := none
    country := "россия"
    incoterms := none
    bank := none
    sales_channel := none
    manager := "ivanov"
    comment := none
    status := "paid"
    invoice_date := none
    payment_date := none
    invoice_amount := some 100
    payment_amount := none
    invoice_currency := some "RUB"
    cross_rate := some 1 }

/-- The §8 scenario row: invoiced 45 days before the evaluation date, still
open, above the batch median, high-risk country. -/
def scenarioRecord : Record :=
  { baseRecord with
    invoice_id := some "INV-1"
    status := "open"
    country := "египет"
    invoice_date := some 0
    invoice_amount := some 200 }

/-- Reporting-currency row (exact match `"RUB"`). -/
def rubExactRecord : Record :=
  { baseRecord with invoice_amount := some 2, cross_rate := some 3 }

/-- Lower-case currency code: not a case-sensitive match for `"RUB"`. -/
def rubLowerRecord : Record :=
  { baseRecord with invoice_currency := some "rub", invoice_amount := some 2, cross_rate := some 3 }

/-- RUB row with a missing cross rate but a present amount. -/
def rubNullRateRecord : Record :=
  { baseRecord with invoice_amount := some 100, cross_rate := none }

/-- Row with a missing invoice amount. -/
def nullAmountRecord : Record :=
  { baseRecord with invoice_amount := none, invoice_currency := some "USD" }

/-- First row with a missing business key. -/
def nullKeyA : Record := { baseRecord with invoice_id := none, contractor := "alpha" }

/-- Second row with a missing business key, distinct from the first. -/
def nullKeyB : Record := { baseRecord with invoice_id := none, contractor := "beta" }

/-- Row whose cross rate is missing (for the all-null-rates batch). -/
def rateNullRecord : Record := { baseRecord with invoice_id := some "INV-9", cross_rate := none }

/-! ## C1: risk score bounded -/

/-- C1: for every record the derived risk score is an integer in [0, 100]
inclusive, however large the intermediate additive sum of penalty
components becomes. -/
theorem risk_score_in_range (today : Int) (medRub amtRub : Option ℚ) (r : Record) :
    0 ≤ calculate_risk_score today medRub amtRub r ∧
      calculate_risk_score today medRub amtRub r ≤ 100 := by
  simp only [calculate_risk_score]
  cases r.invoice_date <;> cases amtRub <;> cases medRub <;> dsimp only <;>
    split_ifs <;> constructor <;> omega

/-- C1 witness: the scenario batch evaluates inside the bounds. -/
theorem risk_score_in_range_witness :
    0 ≤ calculate_risk_score 45 (some 150) (some 200) scenarioRecord ∧
      calculate_risk_score 45 (some 150) (some 200) scenarioRecord ≤ 100 :=
  risk_score_in_range 45 (some 150) (some 200) scenarioRecord

/-! ## C3: risk score formula and the §8 scenario -/

/-- C3: the computed risk score is exactly the spec's additive formula —
overdue penalty `50 + min(days_overdue*5, 50)` when positive and 0 on a null
due date, +10 above the batch median, +15 outside the paid/closed set, +15
for the high-risk country — clamped to [0, 100] once at the end; and the §8
scenario row (invoiced 45 days before evaluation, status "open", amount
above the batch median, high-risk country) scores exactly 100 while a benign
paid row scores 0. -/
theorem risk_score_formula :
    (∀ (today : Int) (medRub amtRub : Option ℚ) (r : Record),
        calculate_risk_score today medRub amtRub r = riskScoreSpec today medRub amtRub r) ∧
      scoreTable 45 [scenarioRecord, baseRecord] = [(some 200, 100), (some 100, 0)] := by
  constructor
  · intro today medRub amtRub r
    simp only [calculate_risk_score, riskScoreSpec]
    cases r.invoice_date <;> cases amtRub <;> cases medRub <;> dsimp only <;>
      split_ifs <;> omega
  · have hmed : medianAmountRub [scenarioRecord, baseRecord] = some 150 := by
      have h : medianAmountRub [scenarioRecord, baseRecord] = some ((100 + 200) / 2 : ℚ) := rfl
      rw [h]
      norm_num
    simp only [scoreTable, List.map_cons, List.map_nil]
    rw [hmed]
    decide

/-! ## C5: currency conversion -/

/-- C5: with a case-sensitively exact `"RUB"` currency code the converted
amount is the invoice amount itself (no multiplication); otherwise it is
`invoice_amount × cross_rate` under pandas NaN propagation. -/
theorem currency_conversion_exact (r : Record) :
    (r.invoice_currency = some "RUB" → amount_rub r = r.invoice_amount) ∧
      (r.invoice_currency ≠ some "RUB" →
        amount_rub r = r.invoice_amount.bind fun a => r.cross_rate.map fun c => a * c) := by
  constructor
  · intro h
    simp [amount_rub, h]
  · intro h
    cases ha : r.invoice_amount <;> cases hc : r.cross_rate <;>
      simp [amount_rub, h, ha, hc]

/-- C5 witness: an exact `"RUB"` row passes its amount through unchanged,
and a lower-case `"rub"` row is multiplied by the cross rate instead. -/
theorem currency_conversion_exact_witness :
    amount_rub rubExactRecord = some 2 ∧ amount_rub rubLowerRecord = some 6 := by
  constructor
  · exact ((currency_conversion_exact rubExactRecord).1 rfl).trans rfl
  · have h := (currency_conversion_exact rubLowerRecord).2 (by decide)
    rw [h]
    show some ((2 : ℚ) * 3) = some 6
    norm_num

/-! ## C6: null propagation into sums -/

/-- C6 counterexample: a `"RUB"`-currency row with a missing cross rate but
a present invoice amount still gets a present converted amount, so a null
`cross_rate` alone does not make `amount_reporting_currency` null. -/
theorem null_propagation_counterexample :
    rubNullRateRecord.cross_rate = none ∧ amount_rub rubNullRateRecord = some 100 := by
  exact ⟨rfl, by decide⟩

/-! ## C7: amount-string cleaning -/

/-- C7: the amount cleaner strips the approximation marker, the token "usd"
case-insensitively, currency symbols and spaces, and turns the comma into a
decimal point before numeric parsing, so `"≈ 1 200,50 usd"` parses to
1200.50; a cell that remains unparseable coerces to null instead of
raising. -/
theorem amount_string_cleaning :
    cleanAmountCell "≈ 1 200,50 usd" = some (1200.5 : ℚ) ∧
      cleanAmountCell "USD 3 000" = some 3000 ∧
      cleanAmountCell "n/a" = none := by
  refine ⟨?_, ?_, ?_⟩
  · have h : cleanAmountCell "≈ 1 200,50 usd" =
        some ((digitsToNat ['1', '2', '0', '0'] : ℚ) +
          (digitsToNat ['5', '0'] : ℚ) / (10 : ℚ) ^ 2) := rfl
    have h1 : digitsToNat ['1', '2', '0', '0'] = 1200 := by decide
    have h2 : digitsToNat ['5', '0'] = 50 := by decide
    rw [h, h1, h2]
    norm_num
  · have h : cleanAmountCell "USD 3 000" = some ((digitsToNat ['3', '0', '0', '0'] : ℚ)) := rfl
    have h1 : digitsToNat ['3', '0', '0', '0'] = 3000 := by decide
    rw [h, h1]
    norm_num
  · rfl

/-! ## Helper lemmas about sums over the `amount_rub` column -/

/-- Rows whose `amount_rub` is null can be dropped without changing the
non-null cells of the column. -/
theorem filterMap_amount_filter_isSome (l : List Record) :
    (l.filter fun r => (amount_rub r).isSome).filterMap amount_rub = l.filterMap amount_rub := by
  induction l with
  | nil => rfl
  | cons r rs ih => cases h : amount_rub r <;> simp [List.filter_cons, h, ih]

/-- A pandas sum of the mapped column is the sum of its non-null cells. -/
theorem pandasSum_map_amount (l : List Record) :
    pandasSum (l.map amount_rub) = (l.filterMap amount_rub).sum := by
  unfold pandasSum
  rw [List.filterMap_map]
  rfl

/-! ## C6: null propagation and null-skipping sums -/

/-- C6 (amended): a null `invoice_amount` always yields a null converted
amount; a null `cross_rate` yields a null converted amount whenever the
currency is not the reporting currency; and each downstream aggregate sum —
total amount, expected revenue, overdue amount, and the per-contractor
overdue sums — skips rows whose converted amount is null rather than
counting them as zero. -/
theorem null_propagation (r : Record) (today : Int) (rs : List Record) (c : String) :
    (r.invoice_amount = none → amount_rub r = none) ∧
      (r.cross_rate = none → r.invoice_currency ≠ some "RUB" → amount_rub r = none) ∧
      totalAmount rs = totalAmount (rs.filter fun x => (amount_rub x).isSome) ∧
      totalExpected rs = totalExpected (rs.filter fun x => (amount_rub x).isSome) ∧
      totalOverdue today rs = totalOverdue today (rs.filter fun x => (amount_rub x).isSome) ∧
      contractorOverdueSum today c rs =
        contractorOverdueSum today c (rs.filter fun x => (amount_rub x).isSome) := by
  refine ⟨?_, ?_, ?_, ?_, ?_, ?_⟩
  · intro h
    cases hc : r.cross_rate <;> simp [amount_rub, h, hc]
  · intro h hcur
    cases ha : r.invoice_amount <;> simp [amount_rub, h, ha, hcur]
  · unfold totalAmount
    rw [pandasSum_map_amount, pandasSum_map_amount, filterMap_amount_filter_isSome]
  · unfold totalExpected
    rw [pandasSum_map_amount, pandasSum_map_amount, List.filter_comm,
      filterMap_amount_filter_isSome]
  · unfold totalOverdue
    rw [pandasSum_map_amount, pandasSum_map_amount, List.filter_comm,
      filterMap_amount_filter_isSome]
  · unfold contractorOverdueSum
    rw [pandasSum_map_amount, pandasSum_map_amount,
      List.filter_comm (overdueMask today) (fun x => (amount_rub x).isSome) rs,
      List.filter_comm (fun r => decide (r.contractor = c)) (fun x => (amount_rub x).isSome) _,
      filterMap_amount_filter_isSome]

/-- C6 witness: a row with a null invoice amount converts to null. -/
theorem null_propagation_witness : amount_rub nullAmountRecord = none :=
  (null_propagation nullAmountRecord 0 [] "alpha").1 rfl

/-! ## C8: overdue ratio guard -/

/-- C8: for non-negative converted amounts (the spec's data model: amounts
non-negative, rates positive) the overdue-ratio KPI equals
`overdue / total × 100` whenever `total_amount` is nonzero and equals 0 when
`total_amount` is 0, the division being guarded so the zero-divisor branch is
never taken. -/
theorem overdue_ratio_zero_guard (today : Int) (rs : List Record)
    (h : ∀ r ∈ rs, 0 ≤ (amount_rub r).getD 0) :
    overdue_ratio today rs =
      if totalAmount rs = 0 then 0 else totalOverdue today rs / totalAmount rs * 100 := by
  have h0 : 0 ≤ totalAmount rs := by
    rw [show totalAmount rs = pandasSum (rs.map amount_rub) from rfl, pandasSum_map_amount]
    refine List.sum_nonneg ?_
    intro q hq
    rcases List.mem_filterMap.mp hq with ⟨r, hr, hqr⟩
    simpa [hqr] using h r hr
  rcases eq_or_lt_of_le h0 with he | hl
  · rw [overdue_ratio, if_neg (by rw [← he]; exact lt_irrefl 0), if_pos he.symm]
  · rw [overdue_ratio, if_pos hl, if_neg hl.ne']

/-- C8 witness: the guarded equation holds on a concrete one-row batch. -/
theorem overdue_ratio_zero_guard_witness :
    overdue_ratio 45 [scenarioRecord] =
      if totalAmount [scenarioRecord] = 0 then 0
      else totalOverdue 45 [scenarioRecord] / totalAmount [scenarioRecord] * 100 :=
  overdue_ratio_zero_guard 45 [scenarioRecord] (by decide)

/-! ## C9: hypothesis classification -/

/-- C9: writing `highest` for the maximum per-country overdue ratio and
`med` for the cross-group median, the check classifies "confirmed" exactly
when `highest > 1.5 × med`, "partially confirmed" exactly when
`highest > med` but not `highest > 1.5 × med`, and "not confirmed"
otherwise; in particular a maximum ratio exactly equal to a non-negative
median is "not confirmed". -/
theorem hypothesis_classification (ratios : List ℚ) (highest med : ℚ)
    (hmax : seriesMax ratios = some highest) (hmed : pandasMedian ratios = some med) :
    (hypothesisCheck ratios = some HypothesisResult.confirmed ↔ med * 1.5 < highest) ∧
      (hypothesisCheck ratios = some HypothesisResult.partlyConfirmed ↔
        med < highest ∧ ¬ med * 1.5 < highest) ∧
      (hypothesisCheck ratios = some HypothesisResult.notConfirmed ↔
        highest ≤ med ∧ highest ≤ med * 1.5) ∧
      (0 ≤ med → highest = med → hypothesisCheck ratios = some HypothesisResult.notConfirmed) := by
  unfold hypothesisCheck
  rw [hmax, hmed]
  dsimp only
  split_ifs with h1 h2
  · exact ⟨iff_of_true rfl h1,
      iff_of_false (by simp) (fun hp => hp.2 h1),
      iff_of_false (by simp) (fun hp => absurd h1 (not_lt.mpr hp.2)),
      fun hm he => absurd h1 (by rw [he]; linarith)⟩
  · exact ⟨iff_of_false (by simp) h1,
      iff_of_true rfl ⟨h2, h1⟩,
      iff_of_false (by simp) (fun hp => absurd h2 (not_lt.mpr hp.1)),
      fun hm he => absurd h2 (by rw [he]; exact lt_irrefl med)⟩
  · exact ⟨iff_of_false (by simp) h1,
      iff_of_false (by simp) (fun hp => h2 hp.1),
      iff_of_true rfl ⟨not_lt.mp h2, not_lt.mp h1⟩,
      fun _ _ => rfl⟩

/-- C9 witness: a group whose maximum ratio equals the median ratio is
classified "not confirmed", not "partially confirmed". -/
theorem hypothesis_classification_witness :
    hypothesisCheck [50, 50] = some HypothesisResult.notConfirmed :=
  (hypothesis_classification [50, 50] 50 50 (by decide)
      (by rw [show pandasMedian [(50 : ℚ), 50] = some ((50 + 50) / 2 : ℚ) from rfl]; norm_num)).2.2.2
    (by norm_num) rfl

/-! ## Helper lemmas about deduplication -/

/-- The survivors of `dropDuplicates` carrying a given key value are the
first input occurrence of that key — none at all if the key was already
seen. -/
theorem dropDuplicates_filter_key (rs : List Record) (seen : List (Option String))
    (k : Option String) :
    (dropDuplicates seen rs).filter (fun r => decide (r.invoice_id = k)) =
      if k ∈ seen then [] else (rs.filter (fun r => decide (r.invoice_id = k))).take 1 := by
  induction rs generalizing seen with
  | nil => simp [dropDuplicates]
  | cons r rs ih =>
    simp only [dropDuplicates]
    by_cases hs : r.invoice_id ∈ seen
    · rw [if_pos hs, ih]
      by_cases hk : k ∈ seen
      · rw [if_pos hk, if_pos hk]
      · have hrk : ¬(r.invoice_id = k) := fun h => hk (h ▸ hs)
        rw [if_neg hk, if_neg hk, List.filter_cons_of_neg (by simpa using hrk)]
    · rw [if_neg hs]
      by_cases hrk : r.invoice_id = k
      · subst hrk
        rw [List.filter_cons_of_pos (by simp), ih,
          if_pos (List.mem_cons_self _ _), if_neg hs,
          List.filter_cons_of_pos (by simp)]
        simp
      · have hmem : (k ∈ r.invoice_id :: seen) ↔ k ∈ seen := by
          constructor
          · intro hx
            rcases List.mem_cons.mp hx with he | hx2
            · exact absurd he.symm hrk
            · exact hx2
          · exact fun hx => List.mem_cons_of_mem _ hx
        rw [List.filter_cons_of_neg (by simpa using hrk), ih]
        by_cases hk : k ∈ seen
        · rw [if_pos (hmem.mpr hk), if_pos hk]
        · rw [if_neg (fun hx => hk (hmem.mp hx)), if_neg hk,
            List.filter_cons_of_neg (by simpa using hrk)]

/-- Deduplication only removes rows: the output is a sublist of the input. -/
theorem dropDuplicates_sublist (rs : List Record) (seen : List (Option String)) :
    (dropDuplicates seen rs).Sublist rs := by
  induction rs generalizing seen with
  | nil => simp [dropDuplicates]
  | cons r rs ih =>
    simp only [dropDuplicates]
    split_ifs
    · exact (ih seen).cons r
    · exact (ih _).cons₂ r

/-! ## C4: deduplication semantics -/

/-- C4 counterexample: two distinct rows that both have a null
`invoice_id` are deduplicated against each other — pandas `drop_duplicates`
treats NaN keys as equal — so only the first survives, not both. -/
theorem dedup_null_keys_counterexample :
    dedupRecords [nullKeyA, nullKeyB] = [nullKeyA] ∧
      nullKeyB ∉ dedupRecords [nullKeyA, nullKeyB] := by
  constructor <;> decide

/-- C4 (amended): for every `invoice_id` key value, the null key included,
the cleaned table retains exactly the first input occurrence of that key in
original order, and deduplication never reorders or duplicates rows. -/
theorem dedup_first_occurrence (rs : List Record) (k : Option String) :
    (dedupRecords rs).filter (fun r => decide (r.invoice_id = k)) =
      (rs.filter (fun r => decide (r.invoice_id = k))).take 1 ∧
      (dedupRecords rs).Sublist rs := by
  constructor
  · rw [dedupRecords, dropDuplicates_filter_key]
    simp
  · exact dropDuplicates_sublist rs []

/-! ## Helper lemmas about the median and imputation -/

/-- Insertion grows the sorted column by one. -/
theorem length_insertSorted (q : ℚ) (l : List ℚ) :
    (insertSorted q l).length = l.length + 1 := by
  induction l with
  | nil => rfl
  | cons x xs ih =>
    simp only [insertSorted]
    split_ifs <;> simp [ih]

/-- Sorting preserves the column length. -/
theorem length_sortQ (l : List ℚ) : (sortQ l).length = l.length := by
  induction l with
  | nil => rfl
  | cons x xs ih =>
    show (insertSorted x (sortQ xs)).length = xs.length + 1
    rw [length_insertSorted, ih]

/-- The median of a nonempty column is an actual value. -/
theorem pandasMedian_ne_none (l : List ℚ) (h : l ≠ []) : pandasMedian l ≠ none := by
  unfold pandasMedian
  have hlen : (sortQ l).length ≠ 0 := by
    rw [length_sortQ]
    exact fun h0 => h (List.length_eq_zero.mp h0)
  dsimp only
  rw [if_neg hlen]
  split_ifs <;> simp

/-! ## C2: cross-rate imputation -/

/-- C2 counterexample: when every cross rate of the batch is null the median
is itself null and `fillna` leaves the column null, so a record exits the
cleaning stage with a null `cross_rate`. -/
theorem cross_rate_all_null_counterexample :
    (cleanTyped [rateNullRecord]).map (fun r => r.cross_rate) = [none] := by
  decide

/-- C2 (amended): after cleaning, `cross_rate` is non-null for every record
provided at least one deduplicated record carried a non-null cross rate
(the imputation fills nulls with the median of the observed rates); when
every rate is null, the imputed value is itself null. -/
theorem cross_rate_imputed (rs : List Record)
    (h : ∃ r ∈ dedupRecords rs, (r.cross_rate).isSome) :
    ∀ r ∈ cleanTyped rs, (r.cross_rate).isSome := by
  intro r hr
  unfold cleanTyped fillCrossRate at hr
  rcases List.mem_map.mp hr with ⟨r1, hr1, rfl⟩
  rcases List.mem_map.mp hr1 with ⟨r2, hr2, rfl⟩
  show ((fillOne (pandasMedian ((dedupRecords rs).filterMap fun x => x.cross_rate)) r2).cross_rate).isSome
  rcases hc : r2.cross_rate with _ | c
  · simp only [fillOne, hc]
    rcases h with ⟨r0, hr0, hr0s⟩
    rcases Option.isSome_iff_exists.mp hr0s with ⟨q, hq⟩
    have hne : (dedupRecords rs).filterMap (fun x => x.cross_rate) ≠ [] :=
      List.ne_nil_of_mem (List.mem_filterMap.mpr ⟨r0, hr0, hq⟩)
    exact Option.isSome_iff_ne_none.mpr (pandasMedian_ne_none _ hne)
  · simp [fillOne, hc]

/-- C2 witness: a batch with one observed rate and one missing rate leaves
the cleaning stage with every `cross_rate` present. -/
theorem cross_rate_imputed_witness :
    ((cleanTyped [baseRecord, rateNullRecord]).all fun r => (r.cross_rate).isSome) = true := by
  rw [List.all_eq_true]
  intro r hr
  exact cross_rate_imputed [baseRecord, rateNullRecord] (by decide) r hr

/-! ## Helper lemmas: characters and normalization -/

/-- Lowercased characters are never keys of the lowercase table. -/
theorem upperToLower_snd_not_key :
    ∀ p ∈ upperToLower, upperToLower.find? (fun q => q.1 == p.2) = none := by
  decide

/-- Neither keys nor values of the lowercase table are whitespace. -/
theorem upperToLower_not_space :
    ∀ p ∈ upperToLower, isSpaceChar p.1 = false ∧ isSpaceChar p.2 = false := by
  decide

/-- Lowercasing a character twice is the same as lowercasing it once. -/
theorem pyLowerChar_idem (c : Char) : pyLowerChar (pyLowerChar c) = pyLowerChar c := by
  unfold pyLowerChar
  rcases h : upperToLower.find? (fun p => p.1 == c) with _ | p
  · simp [h]
  · have hp := List.mem_of_find?_eq_some h
    simp [h, upperToLower_snd_not_key p hp]

/-- Lowercasing does not change whether a character is whitespace. -/
theorem isSpaceChar_pyLowerChar (c : Char) : isSpaceChar (pyLowerChar c) = isSpaceChar c := by
  unfold pyLowerChar
  rcases h : upperToLower.find? (fun p => p.1 == c) with _ | p
  · rw [h]
    rfl
  · have hp := List.mem_of_find?_eq_some h
    have hc : p.1 = c := by simpa using List.find?_some h
    rcases upperToLower_not_space p hp with ⟨h1, h2⟩
    rw [h]
    show isSpaceChar p.2 = isSpaceChar c
    rw [h2, ← hc, h1]

/-- The head of a `dropWhile` result never satisfies the predicate. -/
theorem dropWhile_head?_not (p : α → Bool) (l : List α) (x : α)
    (h : (l.dropWhile p).head? = some x) : p x = false := by
  induction l with
  | nil => simp [List.dropWhile] at h
  | cons a as ih =>
    rw [List.dropWhile_cons] at h
    by_cases ha : p a = true
    · rw [if_pos ha] at h
      exact ih h
    · rw [if_neg ha] at h
      simp only [List.head?_cons, Option.some.injEq] at h
      subst h
      exact Bool.eq_false_iff.mpr ha

/-- A list whose head does not satisfy the predicate is `dropWhile`-fixed. -/
theorem dropWhile_eq_self_of_head? (p : α → Bool) (l : List α)
    (h : ∀ x, l.head? = some x → p x = false) : l.dropWhile p = l := by
  cases l with
  | nil => rfl
  | cons a as => rw [List.dropWhile_cons, if_neg (by simp [h a rfl])]

/-- `dropWhile` is idempotent. -/
theorem dropWhile_idem (p : α → Bool) (l : List α) :
    (l.dropWhile p).dropWhile p = l.dropWhile p :=
  dropWhile_eq_self_of_head? p _ fun x hx => dropWhile_head?_not p l x hx

/-- `dropWhile` keeps the last element of the list when its result is
nonempty. -/
theorem getLast?_dropWhile (p : α → Bool) (l : List α) (h : l.dropWhile p ≠ []) :
    (l.dropWhile p).getLast? = l.getLast? := by
  induction l with
  | nil => exact absurd rfl h
  | cons a as ih =>
    rw [List.dropWhile_cons] at h ⊢
    by_cases ha : p a = true
    · rw [if_pos ha] at h ⊢
      rw [ih h]
      rcases as with _ | ⟨b, bs⟩
      · exact absurd rfl h
      · exact List.getLast?_cons_cons.symm
    · rw [if_neg ha]

/-- A character map that preserves the predicate commutes with
`dropWhile`. -/
theorem map_dropWhile (f : α → α) (p : α → Bool) (l : List α) (hf : ∀ c, p (f c) = p c) :
    (l.dropWhile p).map f = (l.map f).dropWhile p := by
  induction l with
  | nil => rfl
  | cons a as ih =>
    rw [List.map_cons, List.dropWhile_cons, List.dropWhile_cons, hf]
    by_cases ha : p a = true
    · rw [if_pos ha, if_pos ha, ih]
    · rw [if_neg ha, if_neg ha, List.map_cons]

/-- Left strip is idempotent. -/
theorem ldrop_idem (l : List Char) : ldrop (ldrop l) = ldrop l := dropWhile_idem _ _

/-- Right strip is idempotent. -/
theorem rdrop_idem (l : List Char) : rdrop (rdrop l) = rdrop l := by
  unfold rdrop
  rw [List.reverse_reverse, dropWhile_idem]

/-- Right-stripping a left-stripped list leaves it left-stripped. -/
theorem ldrop_rdrop (l : List Char) (h : ldrop l = l) : ldrop (rdrop l) = rdrop l := by
  apply dropWhile_eq_self_of_head?
  intro x hx
  unfold rdrop at hx
  rw [List.head?_reverse] at hx
  have hne : l.reverse.dropWhile isSpaceChar ≠ [] := by
    intro h0
    rw [h0] at hx
    simp at hx
  rw [getLast?_dropWhile _ _ hne, List.getLast?_reverse] at hx
  cases l with
  | nil => simp at hx
  | cons a as =>
    simp only [List.head?_cons, Option.some.injEq] at hx
    subst hx
    unfold ldrop at h
    rw [List.dropWhile_cons] at h
    by_cases ha : isSpaceChar a = true
    · rw [if_pos ha] at h
      have hlen := congrArg List.length h
      have hle := (List.dropWhile_sublist (l := as) isSpaceChar).length_le
      simp at hlen
      omega
    · exact Bool.eq_false_iff.mpr ha

/-- `str.strip()` is idempotent. -/
theorem pyStrip_idem (l : List Char) : pyStrip (pyStrip l) = pyStrip l := by
  unfold pyStrip
  rw [ldrop_rdrop _ (ldrop_idem l), rdrop_idem]

/-- Lowercasing commutes with stripping. -/
theorem pyLower_pyStrip (l : List Char) : pyLower (pyStrip l) = pyStrip (pyLower l) := by
  have hmd : ∀ (t : List Char),
      (t.dropWhile isSpaceChar).map pyLowerChar = (t.map pyLowerChar).dropWhile isSpaceChar :=
    fun t => map_dropWhile _ _ t isSpaceChar_pyLowerChar
  simp only [pyStrip, pyLower, ldrop, rdrop, hmd, List.map_reverse]

/-- `str.lower()` is idempotent. -/
theorem pyLower_idem (l : List Char) : pyLower (pyLower l) = pyLower l := by
  unfold pyLower
  rw [List.map_map]
  exact List.map_congr_left fun c _ => pyLowerChar_idem c

/-- One normalization pass is a fixed point of a second pass. -/
theorem normalizeCell_idem (s : String) : normalizeCell (normalizeCell s) = normalizeCell s := by
  unfold normalizeCell
  rw [show (String.mk (pyLower (pyStrip s.toList))).toList = pyLower (pyStrip s.toList) from rfl]
  congr 1
  rw [← pyLower_pyStrip, pyStrip_idem, pyLower_idem]

/-! ## Helper lemmas: normalization, imputation and deduplication at table level -/

/-- Normalizing a record twice is the same as normalizing it once. -/
theorem normalizeRecord_idem (r : Record) :
    normalizeRecord (normalizeRecord r) = normalizeRecord r := by
  cases r
  simp [normalizeRecord, normalizeCell_idem]

/-- A map that fixes every member of a list fixes the list. -/
theorem map_eq_self_of_fixes (f : Record → Record) (l : List Record)
    (h : ∀ r ∈ l, f r = r) : l.map f = l := by
  induction l with
  | nil => rfl
  | cons r rs ih =>
    rw [List.map_cons, h r (List.mem_cons_self _ _),
      ih fun x hx => h x (List.mem_cons_of_mem _ hx)]

/-- `fillna` fixes a record whose rate is present. -/
theorem fillOne_eq_self_of_isSome (m : Option ℚ) (r : Record) (h : (r.cross_rate).isSome) :
    fillOne m r = r := by
  rcases hc : r.cross_rate with _ | c
  · rw [hc] at h
    simp at h
  · cases r
    simp_all [fillOne]

/-- `fillna` with a null fill value fixes a record whose rate is null. -/
theorem fillOne_none (r : Record) (h : r.cross_rate = none) : fillOne none r = r := by
  cases r
  simp_all [fillOne]

/-- Imputation fixes a table whose rates are all present. -/
theorem fillCrossRate_eq_self_of_all_some (rs : List Record)
    (h : ∀ r ∈ rs, (r.cross_rate).isSome) : fillCrossRate rs = rs := by
  unfold fillCrossRate
  exact map_eq_self_of_fixes _ _ fun r hr => fillOne_eq_self_of_isSome _ r (h r hr)

/-- Imputation fixes a table whose rates are all null: the median of the
empty observed column is itself null. -/
theorem fillCrossRate_eq_self_of_all_none (rs : List Record)
    (h : ∀ r ∈ rs, r.cross_rate = none) : fillCrossRate rs = rs := by
  unfold fillCrossRate
  have hnil : rs.filterMap (fun r => r.cross_rate) = [] := List.filterMap_eq_nil_iff.mpr h
  rw [hnil]
  exact map_eq_self_of_fixes _ _ fun r hr => fillOne_none r (h r hr)

/-- After imputation, either every rate is present or every rate is null. -/
theorem fillCrossRate_rates (rs : List Record) :
    (∀ r ∈ fillCrossRate rs, (r.cross_rate).isSome) ∨
      (∀ r ∈ fillCrossRate rs, r.cross_rate = none) := by
  rcases hm : pandasMedian (rs.filterMap fun r => r.cross_rate) with _ | m
  · right
    intro r hr
    unfold fillCrossRate at hr
    rcases List.mem_map.mp hr with ⟨r0, hr0, rfl⟩
    have hnil : rs.filterMap (fun r => r.cross_rate) = [] := by
      by_contra hne
      exact pandasMedian_ne_none _ hne hm
    have h0 : r0.cross_rate = none := List.filterMap_eq_nil_iff.mp hnil r0 hr0
    simp [fillOne, h0, hm]
  · left
    intro r hr
    unfold fillCrossRate at hr
    rcases List.mem_map.mp hr with ⟨r0, hr0, rfl⟩
    rcases hc : r0.cross_rate with _ | c <;> simp [fillOne, hc, hm]

/-- A second imputation pass, run after normalization, changes nothing. -/
theorem fillCrossRate_stable (rs : List Record) :
    fillCrossRate ((fillCrossRate rs).map normalizeRecord) =
      (fillCrossRate rs).map normalizeRecord := by
  rcases fillCrossRate_rates rs with h | h
  · apply fillCrossRate_eq_self_of_all_some
    intro r hr
    rcases List.mem_map.mp hr with ⟨r0, hr0, rfl⟩
    exact h r0 hr0
  · apply fillCrossRate_eq_self_of_all_none
    intro r hr
    rcases List.mem_map.mp hr with ⟨r0, hr0, rfl⟩
    exact h r0 hr0

/-- Keys surviving deduplication are pairwise distinct and disjoint from the
accumulator of already-seen keys. -/
theorem dropDuplicates_keys (l : List Record) (seen : List (Option String)) :
    ((dropDuplicates seen l).map (fun r => r.invoice_id)).Nodup ∧
      ∀ r ∈ dropDuplicates seen l, r.invoice_id ∉ seen := by
  induction l generalizing seen with
  | nil => simp [dropDuplicates]
  | cons r rs ih =>
    simp only [dropDuplicates]
    by_cases hs : r.invoice_id ∈ seen
    · rw [if_pos hs]
      exact ih seen
    · rw [if_neg hs]
      rcases ih (r.invoice_id :: seen) with ⟨hnodup, hnotin⟩
      refine ⟨?_, ?_⟩
      · rw [List.map_cons]
        refine List.nodup_cons.mpr ⟨?_, hnodup⟩
        intro hmem
        rcases List.mem_map.mp hmem with ⟨x, hx, hxk⟩
        exact hnotin x hx (hxk ▸ List.mem_cons_self _ _)
      · intro x hx
        rcases List.mem_cons.mp hx with rfl | hx2
        · exact hs
        · exact fun hxs => hnotin x hx2 (List.mem_cons_of_mem _ hxs)

/-- Deduplication fixes a table whose keys are pairwise distinct and
disjoint from the accumulator. -/
theorem dropDuplicates_eq_self (l : List Record) :
    ∀ seen, (l.map fun r => r.invoice_id).Nodup → (∀ r ∈ l, r.invoice_id ∉ seen) →
      dropDuplicates seen l = l := by
  induction l with
  | nil =>
    intro seen _ _
    rfl
  | cons r rs ih =>
    intro seen hnd hdisj
    simp only [dropDuplicates]
    rw [if_neg (hdisj r (List.mem_cons_self _ _))]
    have hnd' :=
      List.nodup_cons.mp (show (r.invoice_id :: rs.map fun x => x.invoice_id).Nodup from hnd)
    congr 1
    refine ih (r.invoice_id :: seen) hnd'.2 ?_
    intro x hx hmem
    rcases List.mem_cons.mp hmem with he | hseen
    · exact hnd'.1 (he ▸ List.mem_map_of_mem _ hx)
    · exact hdisj x (List.mem_cons_of_mem _ hx) hseen

/-- Imputation and normalization keep the business-key column unchanged. -/
theorem keys_fill_normalize (rs : List Record) :
    (((fillCrossRate rs).map normalizeRecord).map fun r => r.invoice_id) =
      rs.map fun r => r.invoice_id := by
  unfold fillCrossRate
  rw [List.map_map, List.map_map]
  exact List.map_congr_left fun r _ => rfl

/-- Cleaning is idempotent on typed tables. -/
theorem cleanTyped_idem (rs : List Record) : cleanTyped (cleanTyped rs) = cleanTyped rs := by
  have hded : dedupRecords (cleanTyped rs) = cleanTyped rs := by
    unfold cleanTyped dedupRecords
    apply dropDuplicates_eq_self
    · rw [keys_fill_normalize]
      exact (dropDuplicates_keys rs []).1
    · intro r _
      exact List.not_mem_nil _
  show (fillCrossRate (dedupRecords (cleanTyped rs))).map normalizeRecord = cleanTyped rs
  rw [hded]
  show (fillCrossRate ((fillCrossRate (dedupRecords rs)).map normalizeRecord)).map
      normalizeRecord = cleanTyped rs
  rw [fillCrossRate_stable]
  rw [show cleanTyped rs = (fillCrossRate (dedupRecords rs)).map normalizeRecord from rfl,
    List.map_map]
  exact List.map_congr_left fun r _ => normalizeRecord_idem r

/-! ## C10: idempotence of the cleaning-scoring pipeline -/

/-- C10: running the cleaning-scoring pipeline a second time on its own
cleaned output (canonical column names, already-parsed dates and numbers),
with the same evaluation date, changes nothing: the cleaned table itself,
its row count, and the derived `amount_rub` and `risk_score` columns are
all unchanged. -/
theorem pipeline_idempotent (today : Int) (rs : List Record) :
    cleanTyped (cleanTyped rs) = cleanTyped rs ∧
      (cleanTyped (cleanTyped rs)).length = (cleanTyped rs).length ∧
      scoreTable today (cleanTyped (cleanTyped rs)) = scoreTable today (cleanTyped rs) := by
  refine ⟨cleanTyped_idem rs, ?_, ?_⟩ <;> rw [cleanTyped_idem rs]

end App
